import Mathlib

/-!
Verification development for the html-modifier email-template formatter
(`src/app.js`).  The transformation pipeline of that file is a sequence of
regex-driven string rewrites; here each transformer is embedded as an
executable function over `List Char`, mirroring the JavaScript source
tag-for-tag (global/first-match replacement, greedy/lazy quantifiers,
case-insensitive literals, `$`-substitution in string replacements, and the
behaviour of the WHATWG `URL` constructor on the subset of inputs this
development evaluates it at).
-/

/-- Strings are modelled as lists of characters. -/
abbrev Str := List Char

/-- The double-quote character. -/
def qc : Char := Char.ofNat 34

/-- The backquote character (used by JavaScript replacement patterns). -/
def btC : Char := Char.ofNat 96

/-- The apostrophe character (used by JavaScript replacement patterns). -/
def apC : Char := Char.ofNat 39

/-- ASCII lowercasing of one character, as used for case-insensitive
regex literals. -/
def lowC (c : Char) : Char := c.toLower

/-- JavaScript regex `\s` / `String.prototype.trim` whitespace, restricted to
the ASCII whitespace characters that occur in this development. -/
def jsWsB (c : Char) : Bool :=
  c = ' ' || c = Char.ofNat 9 || c = Char.ofNat 10 || c = Char.ofNat 13 ||
  c = Char.ofNat 11 || c = Char.ofNat 12

/-- JavaScript regex `\w`: ASCII letters, digits and underscore. -/
def isWordChar (c : Char) : Bool := c.isAlphanum || c = '_'

/-- `-` or `_` or `\w`, the character class `[\w-]`. -/
def isWordDash (c : Char) : Bool := isWordChar c || c = '-'

/-- Exact literal prefix test. -/
def startsWithLit : Str → Str → Bool
  | [], _ => true
  | _ :: _, [] => false
  | p :: ps, c :: cs => p = c && startsWithLit ps cs

/-- Case-insensitive (ASCII) literal prefix test. -/
def startsWithCI : Str → Str → Bool
  | [], _ => true
  | _ :: _, [] => false
  | p :: ps, c :: cs => lowC p = lowC c && startsWithCI ps cs

/-- `String.prototype.trim` (ASCII subset). -/
def jsTrim (s : Str) : Str :=
  ((s.dropWhile jsWsB).reverse.dropWhile jsWsB).reverse

/-- Index of the first occurrence of a literal substring
(`String.prototype.indexOf`). -/
def findLit (pat : Str) : Str → Option Nat
  | [] => if pat = [] then some 0 else none
  | c :: s =>
    if startsWithLit pat (c :: s) then some 0
    else (findLit pat s).map (· + 1)

/-- Fuelled worker for `countSub` (fuel at least the input length; structural
recursion keeps the definition kernel-reducible). -/
def countSubF (pat : Str) : Nat → Str → Nat
  | 0, _ => 0
  | _, [] => 0
  | f + 1, c :: s =>
    if startsWithLit pat (c :: s) then
      1 + countSubF pat f (List.drop (pat.length - 1) s)
    else countSubF pat f s

/-- Number of non-overlapping occurrences of a (nonempty) literal substring. -/
def countSub (pat s : Str) : Nat := countSubF pat s.length s

/-- Replace the first occurrence of a literal substring with a literal
replacement (`String.prototype.replace` with a string pattern and a
`$`-free replacement). -/
def replaceFirstLit (pat repl : Str) : Str → Str
  | [] => []
  | c :: s =>
    if startsWithLit pat (c :: s) then
      repl ++ List.drop (pat.length - 1) s
    else c :: replaceFirstLit pat repl s

/-- Global regex replacement.  `step s` decides whether a match starts at the
head of `s` and returns the replacement text together with the total number
of characters consumed; scanning then resumes after the match, and positions
without a match are copied, exactly like `String.prototype.replace` with the
`g` flag.  All patterns in this development consume at least one character. -/
def scanReplF (step : Str → Option (Str × Nat)) : Nat → Str → Str
  | 0, s => s
  | _, [] => []
  | f + 1, c :: s =>
    match step (c :: s) with
    | some (r, n) => r ++ scanReplF step f (List.drop (n - 1) s)
    | none => c :: scanReplF step f s

/-- Entry point for global replacement: the fuel is the input length, enough
for every pattern that consumes at least one character. -/
def scanRepl (step : Str → Option (Str × Nat)) (s : Str) : Str :=
  scanReplF step s.length s

/-- First-match-only regex replacement (no `g` flag), with a replacement
computed by a function callback (so no `$`-substitution). -/
def replFirst (step : Str → Option (Str × Nat)) : Str → Str
  | [] => []
  | c :: s =>
    match step (c :: s) with
    | some (r, n) => r ++ List.drop (n - 1) s
    | none => c :: replFirst step s

/-- Collect all (non-overlapping, left-to-right) matches of a pattern, as
`String.prototype.match` with the `g` flag does; `step` returns the length of
a match starting at the head. -/
def collectMatchesF (step : Str → Option Nat) : Nat → Str → List Str
  | 0, _ => []
  | _, [] => []
  | f + 1, c :: s =>
    match step (c :: s) with
    | some n => (c :: s).take n :: collectMatchesF step f (List.drop (n - 1) s)
    | none => collectMatchesF step f s

/-- Entry point for match collection (fuel = input length). -/
def collectMatches (step : Str → Option Nat) (s : Str) : List Str :=
  collectMatchesF step s.length s

/-- Split a string at every occurrence of a separator character. -/
def splitAll (sep : Char) : Str → List Str
  | [] => [[]]
  | c :: s =>
    if c = sep then [] :: splitAll sep s
    else
      match splitAll sep s with
      | [] => [[c]]
      | p :: ps => (c :: p) :: ps

/-- Split at the first occurrence of a separator character, if any. -/
def splitFirst (sep : Char) : Str → Str × Option Str
  | [] => ([], none)
  | c :: s =>
    if c = sep then ([], some s)
    else
      let (a, b) := splitFirst sep s
      (c :: a, b)

/-- `ECMAScript GetSubstitution`: expand `$`-patterns in a replacement string
(`$$`, `$&`, the backquote and apostrophe forms, and `$n`/`$nn` capture
references).  `matched` is the matched text, `pre`/`post` the text before and
after the match, `caps` the capture groups. -/
def getSubstF (matched pre post : Str) (caps : List Str) : Nat → Str → Str
  | 0, t => t
  | _, [] => []
  | f + 1, c :: t =>
    if c = '$' then
      match t with
      | [] => ['$']
      | d :: t2 =>
        if d = '$' then '$' :: getSubstF matched pre post caps f t2
        else if d = '&' then matched ++ getSubstF matched pre post caps f t2
        else if d = btC then pre ++ getSubstF matched pre post caps f t2
        else if d = apC then post ++ getSubstF matched pre post caps f t2
        else if d.isDigit then
          let d1 := d.toNat - 48
          match t2 with
          | e :: t3 =>
            if e.isDigit && 1 ≤ d1 * 10 + (e.toNat - 48) &&
                d1 * 10 + (e.toNat - 48) ≤ caps.length then
              (caps.getD (d1 * 10 + (e.toNat - 48) - 1) []) ++
                getSubstF matched pre post caps f t3
            else if 1 ≤ d1 && d1 ≤ caps.length then
              (caps.getD (d1 - 1) []) ++ getSubstF matched pre post caps f (e :: t3)
            else '$' :: getSubstF matched pre post caps f (d :: e :: t3)
          | [] =>
            if 1 ≤ d1 && d1 ≤ caps.length then
              (caps.getD (d1 - 1) []) ++ getSubstF matched pre post caps f []
            else '$' :: getSubstF matched pre post caps f [d]
        else '$' :: getSubstF matched pre post caps f (d :: t2)
    else c :: getSubstF matched pre post caps f t

/-- Entry point for `$`-substitution (fuel = template length). -/
def getSubst (matched pre post : Str) (caps : List Str) (tmpl : Str) : Str :=
  getSubstF matched pre post caps tmpl.length tmpl

/-- First-match-only regex replacement with a replacement STRING, applying
`$`-substitution (`String.prototype.replace` with a string second argument).
`step` returns the match length and the capture groups. -/
def replFirstSubstAux (step : Str → Option (Nat × List Str)) (tmpl : Str)
    (pre : Str) (s : Str) : Str :=
  match s with
  | [] => pre.reverse
  | c :: t =>
    match step s with
    | some (n, caps) =>
      let matched := s.take n
      let post := s.drop n
      pre.reverse ++ getSubst matched pre.reverse post caps tmpl ++ post
    | none => replFirstSubstAux step tmpl (c :: pre) t

/-- Entry point for string-replacement with `$`-substitution. -/
def replFirstSubst (step : Str → Option (Nat × List Str)) (tmpl : Str)
    (s : Str) : Str :=
  replFirstSubstAux step tmpl [] s

/-- Replace every occurrence of one character by a replacement string
(the shape of every global regex in `htmlEscape` / `escapeStyle`). -/
def replaceChar (c : Char) (r : Str) : Str → Str
  | [] => []
  | x :: xs => (if x = c then r else [x]) ++ replaceChar c r xs

/-- `htmlEscape` (src/app.js): sequentially replaces the characters
ampersand, less-than, greater-than and double-quote by their entities. -/
def htmlEscape (s : Str) : Str :=
  replaceChar qc "&quot;".data
    (replaceChar '>' "&gt;".data
      (replaceChar '<' "&lt;".data
        (replaceChar '&' "&amp;".data s)))

/-- `escapeStyle` (src/app.js): replaces double-quotes in inline style text. -/
def escapeStyle (s : Str) : Str := replaceChar qc "&quot;".data s

/-- `base.replace(/\/+$/, "")`: drop the trailing run of slashes. -/
def stripTrailSlashes (s : Str) : Str :=
  (s.reverse.dropWhile (· = '/')).reverse

/-- `path.replace(/^\/+/, "")`: drop the leading run of slashes. -/
def stripLeadSlashes (s : Str) : Str := s.dropWhile (· = '/')

/-- `joinUrl` (src/app.js): join a base URL and a path with one slash. -/
def joinUrl (base path : Str) : Str :=
  stripTrailSlashes base ++ '/' :: stripLeadSlashes path

/-- Match `<table\b[^>]*?>` (case-insensitive) at the head of the input:
returns the whole tag text and its length. -/
def tableTagAt (s : Str) : Option (Str × Nat) :=
  if startsWithCI "<table".data s then
    match s.drop 6 with
    | [] => none
    | c :: _ =>
      if isWordChar c then none
      else
        let rest := s.drop 6
        let attrs := rest.takeWhile (· ≠ '>')
        if attrs.length < rest.length then
          some (s.take (6 + attrs.length + 1), 6 + attrs.length + 1)
        else none
  else none

/-- Match `<img\b([^>]*)>` (case-insensitive) at the head of the input:
returns the attribute text (group 1) and the match length. -/
def imgTagAt (s : Str) : Option (Str × Nat) :=
  if startsWithCI "<img".data s then
    match s.drop 4 with
    | [] => none
    | c :: _ =>
      if isWordChar c then none
      else
        let rest := s.drop 4
        let attrs := rest.takeWhile (· ≠ '>')
        if attrs.length < rest.length then
          some (attrs, 4 + attrs.length + 1)
        else none
  else none

/-- First match of `\s<name>="([^"]*)"` (case-insensitive) anywhere in the
input: the value of attribute `name`, as `attrs.match(...)` extracts it. -/
def attrFirstVal (name : Str) : Str → Option Str
  | [] => none
  | c :: t =>
    if jsWsB c && startsWithCI name t &&
        startsWithLit ['=', qc] (t.drop name.length) then
      let after := t.drop (name.length + 2)
      let v := after.takeWhile (· ≠ qc)
      if v.length < after.length then some v
      else attrFirstVal name t
    else attrFirstVal name t

/-- Remove the first match of `\s<name>="[^"]*"` (case-insensitive), as the
non-global `attrs.replace(..., "")` calls in `enhanceImages` do. -/
def removeAttrFirst (name : Str) : Str → Str
  | [] => []
  | c :: t =>
    if jsWsB c && startsWithCI name t &&
        startsWithLit ['=', qc] (t.drop name.length) then
      let after := t.drop (name.length + 2)
      let v := after.takeWhile (· ≠ qc)
      if v.length < after.length then after.drop (v.length + 1)
      else c :: removeAttrFirst name t
    else c :: removeAttrFirst name t

/-- `/\sstyle="/i.test(attrs)`: existence test without requiring a closing
quote. -/
def hasWsStyleTest : Str → Bool
  | [] => false
  | c :: t =>
    (jsWsB c && startsWithCI "style".data t &&
      startsWithLit ['=', qc] (t.drop 5)) || hasWsStyleTest t

/-- Search candidate match positions from `i` downwards (regex backtracking
for a greedy `[^>]*` followed by a literal): the highest position passing
`ok` wins. -/
def lastCandAt (ok : Nat → Bool) : Nat → Option Nat
  | 0 => if ok 0 then some 0 else none
  | i + 1 => if ok (i + 1) then some (i + 1) else lastCandAt ok i

/-- Match `(<table[^>]*)\s+height="[^"]*"` (case-insensitive) at the head of
the input, as `stripTableHeights` scans for it: group 1 keeps the original
text, the greedy `[^>]*` makes the `\s+` part a single whitespace character
before the last reachable `height="` occurrence. -/
def heightAt (s : Str) : Option (Str × Nat) :=
  if startsWithCI "<table".data s then
    let rest := s.drop 6
    let run := rest.takeWhile (· ≠ '>')
    match lastCandAt (fun i =>
        decide (1 ≤ i) && decide (i ≤ run.length) &&
        jsWsB (rest.getD (i - 1) 'x') &&
        startsWithCI ("height=".data ++ [qc]) (rest.drop i) &&
        (let after := rest.drop (i + 8)
         decide ((after.takeWhile (· ≠ qc)).length < after.length)))
      run.length with
    | some i =>
      let v := (rest.drop (i + 8)).takeWhile (· ≠ qc)
      some (s.take (6 + (i - 1)), 6 + i + 8 + v.length + 1)
    | none => none
  else none

/-- `stripTableHeights` (src/app.js): removes `height="..."` from table
opening tags. -/
def stripTableHeights (html : Str) : Str := scanRepl heightAt html

/-- The attribute names preserved verbatim by `normalizeTableAttributes`. -/
def fixedAttrNames : List Str :=
  ["id".data, "class".data, "lang".data, "dir".data, "role".data]

/-- Match `="value"` at the head of the input, returning its length. -/
def attrValTail (r : Str) : Option Nat :=
  if startsWithLit ['=', qc] r then
    let v := (r.drop 2).takeWhile (· ≠ qc)
    if v.length < (r.drop 2).length then some (2 + v.length + 1) else none
  else none

/-- Match one of the fixed preserved attribute names followed by `="..."`. -/
def fixedNameAt (r : Str) : Option Nat :=
  (fixedAttrNames.filterMap (fun nm =>
    if startsWithCI nm r then (attrValTail (r.drop nm.length)).map (nm.length + ·)
    else none)).head?

/-- Match `data-[\w-]+="..."` / `aria-[\w-]+="..."` style names. -/
def prefNameAt (p : Str) (r : Str) : Option Nat :=
  if startsWithCI p r then
    let run := (r.drop p.length).takeWhile isWordDash
    if run.length = 0 then none
    else (attrValTail (r.drop (p.length + run.length))).map (p.length + run.length + ·)
  else none

/-- Match `\s(?:id|class|lang|dir|data-[\w-]+|aria-[\w-]+|role)="[^"]*"`
(case-insensitive) at the head of the input. -/
def keepAttrAt (s : Str) : Option Nat :=
  match s with
  | [] => none
  | c :: t =>
    if jsWsB c then
      match fixedNameAt t with
      | some n => some (1 + n)
      | none =>
        match prefNameAt "data-".data t with
        | some n => some (1 + n)
        | none => (prefNameAt "aria-".data t).map (1 + ·)
    else none

/-- `Array.prototype.join(" ")` over attribute fragments. -/
def joinSep (sep : Str) : List Str → Str
  | [] => []
  | [x] => x
  | x :: y :: t => x ++ sep ++ joinSep sep (y :: t)

/-- The attributes forced onto every normalized table. -/
def forcedTableAttrs (isR : Bool) : List Str :=
  ["role=\"presentation\"".data, "align=\"center\"".data,
   (if isR then "width=\"100%\"" else "width=\"650\"").data,
   "border=\"0\"".data, "cellpadding=\"0\"".data, "cellspacing=\"0\"".data]

/-- `normalizeTableAttributes` (src/app.js): preserved attributes first, then
the forced attribute list, joined by single spaces. -/
def normalizeTableAttributes (tag : Str) (isR : Bool) : Str :=
  let keep := (collectMatches keepAttrAt tag).map jsTrim
  joinSep " ".data (keep ++ forcedTableAttrs isR)

/-- The Outlook-compatibility CSS block injected into every table style. -/
def msoCommon : Str :=
  "mso-table-lspace:0pt;mso-table-rspace:0pt;border-collapse:collapse;".data

/-- `normalizeTableStyle` (src/app.js): the rebuilt ` style="..."` text. -/
def normalizeTableStyle (tag : Str) (isR : Bool) : Str :=
  let existing := (attrFirstVal "style".data tag).getD []
  let maxw : Str := if isR then "max-width:650px;".data else []
  let joined := jsTrim (msoCommon ++ maxw ++
    (if existing ≠ [] then ' ' :: existing else []))
  " style=".data ++ [qc] ++ escapeStyle joined ++ [qc]

/-- `normalizeTables` (src/app.js): rewrite every `<table ...>` opening tag. -/
def normalizeTables (html : Str) (isR : Bool) : Str :=
  scanRepl (fun s => (tableTagAt s).map (fun p =>
    ("<table ".data ++ normalizeTableAttributes p.1 isR ++
     normalizeTableStyle p.1 isR ++ ['>'], p.2))) html

/-- Template text before the escaped user text in the hidden `<tr>` block of
`injectPreheader` / `injectHiddenText`. -/
def hiddenBlockPre : Str :=
  ("\n<tr>\n  <td style=\"padding:0;\">\n    <div style=\"display:none " ++
   "!important;font-size:1px;line-height:1px;max-height:0;max-width:0;" ++
   "opacity:0;overflow:hidden;mso-hide:all;visibility:hidden;\">\n      ").data

/-- Template text after the escaped user text in the hidden block. -/
def hiddenBlockPost : Str := "\n    </div>\n  </td>\n</tr>".data

/-- The trimmed hidden block holding the escaped user text. -/
def hiddenBlock (text : Str) : Str :=
  jsTrim (hiddenBlockPre ++ htmlEscape text ++ hiddenBlockPost)

/-- First match of `(<table\b[^>]*>)` for string-replacement: match length
plus the single capture group. -/
def tableTagFind (s : Str) : Option (Nat × List Str) :=
  (tableTagAt s).map (fun p => (p.2, [p.1]))

/-- `injectPreheader` (src/app.js): inserts the hidden block after the first
table opening tag, via a replacement STRING (so `$`-substitution applies to
the whole replacement text, including the user-derived block). -/
def injectPreheader (html preheaderText : Str) : Str :=
  replFirstSubst tableTagFind ("$1".data ++ hiddenBlock preheaderText) html

/-- `injectHiddenText` (src/app.js): splices the hidden block after the first
`</tr>` if one exists (plain slicing, no substitution), else falls back to
the same replacement used by `injectPreheader`. -/
def injectHiddenText (html balanceText : Str) : Str :=
  let block := hiddenBlock balanceText
  match findLit "</tr>".data html with
  | some i => html.take (i + 5) ++ block ++ html.drop (i + 5)
  | none => replFirstSubst tableTagFind ("$1".data ++ block) html

/-- Baseline style block forced onto every enhanced image. -/
def imgStyleBase : Str :=
  ("display:block;line-height:0;font-size:0;height:auto;max-width:100%;" ++
   "border:0;outline:none;text-decoration:none;-ms-interpolation-mode:bicubic").data

/-- `/^https?:\/\//i.test(src) || /^data:/i.test(src)`. -/
def imgIsAbs (src : Str) : Bool :=
  startsWithCI "http://".data src || startsWithCI "https://".data src ||
  startsWithCI "data:".data src

/-- The `src` attribute value extracted by `enhanceImages` ("" if absent). -/
def imgSrcOf (attrs : Str) : Str := (attrFirstVal "src".data attrs).getD []

/-- The final `src` chosen by `enhanceImages`: prefix relative sources with
the base URL, leave absolute sources and empty-base runs alone. -/
def imgSrcFinal (imageBase src : Str) : Str :=
  if imageBase ≠ [] && !(imgIsAbs src) then joinUrl imageBase src else src

/-- Existing alt text: first `\salt="..."` value, trimmed. -/
def imgAltExisting (attrs : Str) : Str :=
  jsTrim ((attrFirstVal "alt".data attrs).getD [])

/-- `.replace(/\.[a-z0-9]+$/i, "")`: strip one final extension. -/
def stripExt : Str → Str
  | [] => []
  | c :: s =>
    if c = '.' && !s.isEmpty && s.all Char.isAlphanum then []
    else c :: stripExt s

/-- Worker for `sepsToSpaces`: the flag records whether the previous
character belonged to a hyphen/underscore run. -/
def sepsToSpacesGo : Bool → Str → Str
  | _, [] => []
  | inRun, c :: t =>
    if c = '-' || c = '_' then
      (if inRun then [] else [' ']) ++ sepsToSpacesGo true t
    else c :: sepsToSpacesGo false t

/-- `.replace(/[-_]+/g, " ")`: each run of hyphens/underscores becomes one
space. -/
def sepsToSpaces (s : Str) : Str := sepsToSpacesGo false s

/-- Filename-derived alt text: last path segment, extension stripped,
separator runs became spaces, trimmed. -/
def imgAltFromFile (src : Str) : Str :=
  jsTrim (sepsToSpaces (stripExt ((splitAll '/' src).getLastD [])))

/-- Alt text chosen by `enhanceImages`:
`altExisting || preheader || altFromFile || ""`. -/
def imgAlt (attrs preheader : Str) : Str :=
  let e := imgAltExisting attrs
  if e ≠ [] then e
  else if preheader ≠ [] then preheader
  else imgAltFromFile (imgSrcOf attrs)

/-- The rebuilt `<img ...>` tag produced by the `enhanceImages` callback. -/
def imgReplace (imageBase preheader attrs : Str) : Str :=
  let srcFinal := imgSrcFinal imageBase (imgSrcOf attrs)
  let alt := imgAlt attrs preheader
  let style := match attrFirstVal "style".data attrs with
    | some v => imgStyleBase ++ "; ".data ++ v
    | none => imgStyleBase
  let cleanAttrs := removeAttrFirst "src".data
    (removeAttrFirst "style".data (removeAttrFirst "alt".data attrs))
  let cleanAttrs2 := if jsTrim cleanAttrs ≠ [] then ' ' :: jsTrim cleanAttrs else []
  "<img src=".data ++ [qc] ++ srcFinal ++ [qc] ++ " alt=".data ++ [qc] ++
    htmlEscape alt ++ [qc] ++ " style=".data ++ [qc] ++ escapeStyle style ++
    [qc] ++ cleanAttrs2 ++ ['>']

/-- `enhanceImages` (src/app.js): rewrite every `<img ...>` tag. -/
def enhanceImages (html imageBase preheader : Str) : Str :=
  scanRepl (fun s => (imgTagAt s).map (fun p =>
    (imgReplace imageBase preheader p.1, p.2))) html

/-- Match `<td\b([^>]*)>(\s*)<img\b[^>]*>(\s*)<\/td>` (case-insensitive) at
the head of the input: attribute text, the two whitespace groups, and the
total length. -/
def tdImgTdAt (s : Str) : Option (Str × Str × Str × Nat) :=
  if startsWithCI "<td".data s then
    match s.drop 3 with
    | [] => none
    | c0 :: _ =>
      if isWordChar c0 then none
      else
        let r1 := s.drop 3
        let attrs := r1.takeWhile (· ≠ '>')
        if attrs.length < r1.length then
          let r2 := r1.drop (attrs.length + 1)
          let ws1 := r2.takeWhile jsWsB
          let r3 := r2.drop ws1.length
          match imgTagAt r3 with
          | some (_, n) =>
            let r4 := r3.drop n
            let ws2 := r4.takeWhile jsWsB
            let r5 := r4.drop ws2.length
            if startsWithCI "</td>".data r5 then
              some (attrs, ws1, ws2,
                3 + attrs.length + 1 + ws1.length + n + ws2.length + 5)
            else none
          | none => none
        else none
  else none

/-- The style block merged into image-only cells. -/
def zeroStyles : Str := "padding:0;font-size:0;line-height:0;".data

/-- `m.replace(/style="([^"]*)"/i, ...)`: prepend the zero block into the
FIRST `style="..."` occurrence of the matched fragment (no leading
whitespace required by this pattern). -/
def styleMergeFirst : Str → Str
  | [] => []
  | c :: t =>
    if startsWithCI "style".data (c :: t) &&
        startsWithLit ['=', qc] ((c :: t).drop 5) then
      let after := (c :: t).drop 7
      let v := after.takeWhile (· ≠ qc)
      if v.length < after.length then
        "style=".data ++ [qc] ++ escapeStyle (zeroStyles ++ ' ' :: v) ++ [qc] ++
          after.drop (v.length + 1)
      else c :: styleMergeFirst t
    else c :: styleMergeFirst t

/-- `m.match(/<img\b[^>]*>/i)[0]`: first image tag inside the fragment. -/
def firstImgTagIn : Str → Str
  | [] => []
  | c :: t =>
    match imgTagAt (c :: t) with
    | some (_, n) => (c :: t).take n
    | none => firstImgTagIn t

/-- The `zeroImageOnlyTds` callback on a matched image-only cell. -/
def tdReplace (m attrs ws1 ws2 : Str) : Str :=
  if hasWsStyleTest attrs then styleMergeFirst m
  else
    let injected := if jsTrim attrs ≠ [] then ' ' :: jsTrim attrs else []
    "<td".data ++ injected ++ " style=".data ++ [qc] ++ zeroStyles ++ [qc] ++
      ['>'] ++ ws1 ++ firstImgTagIn m ++ ws2 ++ "</td>".data

/-- `zeroImageOnlyTds` (src/app.js): zero out padding and font metrics of
cells whose whole content is one image plus whitespace. -/
def zeroImageOnlyTds (html : Str) : Str :=
  scanRepl (fun s =>
    match tdImgTdAt s with
    | some (attrs, ws1, ws2, n) => some (tdReplace (s.take n) attrs ws1 ws2, n)
    | none => none) html

/-- Match `\scolspan="(?:1|)"` (case-insensitive) at the head of the input. -/
def colspanAt (s : Str) : Option Nat :=
  match s with
  | [] => none
  | c :: t =>
    if jsWsB c && startsWithCI "colspan".data t &&
        startsWithLit ['=', qc] (t.drop 7) then
      let r := t.drop 9
      if startsWithLit ['1', qc] r then some 12
      else if startsWithLit [qc] r then some 11
      else none
    else none

/-- `removeNoopColspans` (src/app.js). -/
def removeNoopColspans (html : Str) : Str :=
  scanRepl (fun s => (colspanAt s).map (fun n => (([] : Str), n))) html

/-- `.replace(/[ \t]+$/gm, "")`: drop space/tab runs standing before a line
terminator or the end of the string. -/
def trimLineEndsF : Nat → Str → Str
  | 0, s => s
  | _, [] => []
  | f + 1, c :: t =>
    if c = ' ' || c = Char.ofNat 9 then
      let runT := t.takeWhile (fun d => d = ' ' || d = Char.ofNat 9)
      let rest := t.drop runT.length
      match rest with
      | [] => []
      | d :: _ =>
        if d = Char.ofNat 10 || d = Char.ofNat 13 then trimLineEndsF f rest
        else c :: trimLineEndsF f t
    else c :: trimLineEndsF f t

/-- Entry point for line-end trimming (fuel = input length). -/
def trimLineEnds (s : Str) : Str := trimLineEndsF s.length s

/-- `.replace(/ {2,}/g, " ")`: collapse runs of two or more spaces. -/
def collapseSpacesF : Nat → Str → Str
  | 0, s => s
  | _, [] => []
  | f + 1, c :: t =>
    if c = ' ' then
      let runT := t.takeWhile (· = ' ')
      if runT.length ≥ 1 then ' ' :: collapseSpacesF f (t.drop runT.length)
      else ' ' :: collapseSpacesF f t
    else c :: collapseSpacesF f t

/-- Entry point for space collapsing (fuel = input length). -/
def collapseSpaces (s : Str) : Str := collapseSpacesF s.length s

/-- `lightMinify` (src/app.js): trim line ends, then collapse space runs. -/
def lightMinify (html : Str) : Str := collapseSpaces (trimLineEnds html)

/-- Model of the URL record produced by the WHATWG `URL` constructor, as used
by `utmifyLinks`.  `host = none` models a non-hierarchical (opaque-path) URL.
The model covers the subset of constructor behaviour this development
evaluates it at: absolute `http(s)` URLs written with their `//` slashes,
scheme-less relative references (resolved against the parsing base
`https://example.com` without dot-segment normalization), opaque-path
schemes, and the failure cases (empty or malformed host, malformed port). -/
structure JsUrl where
  scheme : Str
  host : Option Str
  port : Option Str
  path : Str
  query : Option Str
  frag : Option Str
deriving DecidableEq, Repr

/-- Split off a leading `scheme:` if the input has one. -/
def schemeSplit (s : Str) : Option (Str × Str) :=
  match s with
  | [] => none
  | c :: _ =>
    if c.isAlpha then
      let run := s.takeWhile (fun d =>
        d.isAlphanum || d = '+' || d = '-' || d = '.')
      match s.drop run.length with
      | ':' :: r => some (run.map lowC, r)
      | _ => none
    else none

/-- Characters that make a host invalid (forbidden host code points of the
URL standard, restricted to those not already used as terminators). -/
def badHostChar (c : Char) : Bool :=
  c.toNat ≤ 32 || c = '<' || c = '>' || c = '@' || c = '[' || c = ']' ||
  c = '^' || c = '|'

/-- Split path / query / fragment of the remainder after the authority. -/
def pathQueryFrag (r : Str) : Str × Option Str × Option Str :=
  let path := r.takeWhile (fun c => c ≠ '?' && c ≠ '#')
  let rest := r.drop path.length
  match rest with
  | '?' :: r2 =>
    let query := r2.takeWhile (· ≠ '#')
    let rest2 := r2.drop query.length
    match rest2 with
    | '#' :: f => (path, some query, some f)
    | _ => (path, some query, none)
  | '#' :: f => (path, none, some f)
  | _ => (path, none, none)

/-- Parse `host[:port]` followed by path/query/fragment for a special scheme;
fails (like the `URL` constructor throws) on an empty or malformed host or a
non-numeric port. -/
def parseAuthority (scheme : Str) (r : Str) : Option JsUrl :=
  let auth := r.takeWhile (fun c => c ≠ '/' && c ≠ '\\' && c ≠ '?' && c ≠ '#')
  let rest := r.drop auth.length
  let (h, portPart) := splitFirst ':' auth
  if h = [] then none
  else if h.any badHostChar then none
  else
    let host := h.map lowC
    match portPart with
    | none =>
      let (p, q, f) := pathQueryFrag rest
      some ⟨scheme, some host, none, p, q, f⟩
    | some ps =>
      if ps = [] then
        let (p, q, f) := pathQueryFrag rest
        some ⟨scheme, some host, none, p, q, f⟩
      else if ps.all Char.isDigit then
        let port := if (scheme = "http".data && ps = "80".data) ||
            (scheme = "https".data && ps = "443".data) then none else some ps
        let (p, q, f) := pathQueryFrag rest
        some ⟨scheme, some host, port, p, q, f⟩
      else none

/-- Model of `new URL(href, "https://example.com")` on the subset described
at `JsUrl`; `none` models the constructor throwing. -/
def parseForUtm (href : Str) : Option JsUrl :=
  match schemeSplit href with
  | some (sch, r) =>
    if sch = "http".data || sch = "https".data then
      parseAuthority sch (r.dropWhile (fun c => c = '/' || c = '\\'))
    else
      let (p, q, f) := pathQueryFrag r
      some ⟨sch, none, none, p, q, f⟩
  | none =>
    if startsWithLit "//".data href then
      parseAuthority "https".data (href.drop 2)
    else
      match href with
      | '/' :: _ =>
        let (p, q, f) := pathQueryFrag href
        some ⟨"https".data, some "example.com".data, none, p, q, f⟩
      | '?' :: r2 =>
        let query := r2.takeWhile (· ≠ '#')
        let rest2 := r2.drop query.length
        let f := match rest2 with
          | '#' :: fr => some fr
          | _ => none
        some ⟨"https".data, some "example.com".data, none, "/".data, some query, f⟩
      | _ =>
        let (p, q, f) := pathQueryFrag href
        some ⟨"https".data, some "example.com".data, none, '/' :: p, q, f⟩

/-- Uppercase hex digit of a value below 16. -/
def hexDigit (n : Nat) : Char :=
  if n < 10 then Char.ofNat (48 + n) else Char.ofNat (55 + n)

/-- UTF-8 bytes of one character. -/
def utf8Bytes (c : Char) : List Nat :=
  let n := c.toNat
  if n < 128 then [n]
  else if n < 2048 then [192 + n / 64, 128 + n % 64]
  else if n < 65536 then [224 + n / 4096, 128 + (n / 64) % 64, 128 + n % 64]
  else [240 + n / 262144, 128 + (n / 4096) % 64, 128 + (n / 64) % 64, 128 + n % 64]

/-- Characters kept verbatim by `application/x-www-form-urlencoded`
serialization. -/
def formSafeChar (c : Char) : Bool :=
  c.isAlphanum || c = '*' || c = '-' || c = '.' || c = '_'

/-- `application/x-www-form-urlencoded` percent-encoding of one string. -/
def formEncode (s : Str) : Str :=
  s.flatMap (fun c =>
    if formSafeChar c then [c]
    else if c = ' ' then ['+']
    else (utf8Bytes c).flatMap (fun b => ['%', hexDigit (b / 16), hexDigit (b % 16)]))

/-- Value of one hex digit character. -/
def hexVal (c : Char) : Option Nat :=
  if c.isDigit then some (c.toNat - 48)
  else if 'A' ≤ c && c ≤ 'F' then some (c.toNat - 55)
  else if 'a' ≤ c && c ≤ 'f' then some (c.toNat - 87)
  else none

/-- Decoding of `application/x-www-form-urlencoded` text (ASCII subset:
multi-byte percent sequences are beyond the inputs this development decodes). -/
def formDecode : Str → Str
  | [] => []
  | '+' :: t => ' ' :: formDecode t
  | '%' :: a :: b :: t =>
    (match hexVal a, hexVal b with
     | some x, some y =>
       if x * 16 + y < 128 then Char.ofNat (x * 16 + y) :: formDecode t
       else Char.ofNat 65533 :: formDecode t
     | _, _ => '%' :: formDecode (a :: b :: t))
  | c :: t => c :: formDecode t

/-- Parse a query string into `URLSearchParams` pairs. -/
def parseForm (q : Str) : List (Str × Str) :=
  (splitAll '&' q).filterMap (fun seg =>
    if seg = [] then none
    else
      match splitFirst '=' seg with
      | (k, some v) => some (formDecode k, formDecode v)
      | (k, none) => some (formDecode k, []))

/-- Serialize `URLSearchParams` pairs back to a query string. -/
def formSerialize (ps : List (Str × Str)) : Str :=
  joinSep "&".data (ps.map (fun p => formEncode p.1 ++ '=' :: formEncode p.2))

/-- Drop every pair with the given key. -/
def removeKey (k : Str) : List (Str × Str) → List (Str × Str)
  | [] => []
  | (k0, v0) :: t => if k0 = k then removeKey k t else (k0, v0) :: removeKey k t

/-- `URLSearchParams.set`: overwrite the first pair with the key and drop the
other pairs with it, or append a fresh pair at the end. -/
def setParamList (ps : List (Str × Str)) (k v : Str) : List (Str × Str) :=
  match ps with
  | [] => [(k, v)]
  | (k0, v0) :: t =>
    if k0 = k then (k, v) :: removeKey k t
    else (k0, v0) :: setParamList t k v

/-- First value associated with a key among the pairs. -/
def lookupParam (k : Str) : List (Str × Str) → Option Str
  | [] => none
  | (k0, v0) :: t => if k0 = k then some v0 else lookupParam k t

/-- The two conditional `searchParams.set` calls of `utmifyLinks` on the
parameter list. -/
def setUtmList (ps : List (Str × Str)) (m c : Str) : List (Str × Str) :=
  let ps1 := if m ≠ [] then setParamList ps "utm_medium".data m else ps
  if c ≠ [] then setParamList ps1 "utm_campaign".data c else ps1

/-- Apply the `searchParams` mutations of `utmifyLinks` to a parsed URL. -/
def urlSetUtm (u : JsUrl) (m c : Str) : JsUrl :=
  if m = [] && c = [] then u
  else { u with query := some (formSerialize (setUtmList (parseForm (u.query.getD [])) m c)) }

/-- `url.toString()` of the model. -/
def serializeUrl (u : JsUrl) : Str :=
  let qPart : Str := match u.query with
    | some q => '?' :: q
    | none => []
  let fPart : Str := match u.frag with
    | some f => '#' :: f
    | none => []
  match u.host with
  | some h =>
    u.scheme ++ "://".data ++ h ++
      (match u.port with
       | some p => ':' :: p
       | none => []) ++
      (if u.path = [] then "/".data else u.path) ++ qPart ++ fPart
  | none => u.scheme ++ ':' :: u.path ++ qPart ++ fPart

/-- `/^(mailto:|tel:|#|javascript:)/i.test(href)`. -/
def skipHref (href : Str) : Bool :=
  startsWithCI "mailto:".data href || startsWithCI "tel:".data href ||
  startsWithCI "#".data href || startsWithCI "javascript:".data href

/-- The `utmifyLinks` callback on one matched anchor fragment: skip the
protected prefixes, leave the fragment alone when URL parsing fails, else
set the UTM parameters and strip the synthetic parsing base. -/
def anchorRepl (m c : Str) (matched attrs href : Str) : Str :=
  if skipHref href then matched
  else
    match parseForUtm href with
    | none => matched
    | some u =>
      let finalHref := replaceFirstLit "https://example.com".data []
        (serializeUrl (urlSetUtm u m c))
      "<a".data ++ attrs ++ "href=".data ++ [qc] ++ finalHref ++ [qc]

/-- Match `<a\b([^>]*)href="([^"]*)"` (case-insensitive) at the head of the
input: attribute text, href value and match length; implements the greedy
backtracking of `[^>]*` (the LAST reachable `href="` wins). -/
def anchorAt (s : Str) : Option (Str × Str × Nat) :=
  if startsWithCI "<a".data s then
    match s.drop 2 with
    | [] => none
    | c :: _ =>
      if isWordChar c then none
      else
        let rest := s.drop 2
        let run := rest.takeWhile (· ≠ '>')
        if run.length < 6 then none
        else
          match lastCandAt (fun i =>
              decide (i + 6 ≤ run.length) &&
              startsWithCI ("href=".data ++ [qc]) (rest.drop i) &&
              (let after := rest.drop (i + 6)
               decide ((after.takeWhile (· ≠ qc)).length < after.length)))
            (run.length - 6) with
          | some i =>
            let href := (rest.drop (i + 6)).takeWhile (· ≠ qc)
            some (rest.take i, href, 2 + i + 6 + href.length + 1)
          | none => none
  else none

/-- `utmifyLinks` (src/app.js): append UTM parameters to link hrefs, skipping
the protected prefixes; returns the input unchanged when both parameters are
empty. -/
def utmifyLinks (html m c : Str) : Str :=
  if m = [] && c = [] then html
  else
    scanRepl (fun s =>
      match anchorAt s with
      | some (attrs, href, n) => some (anchorRepl m c (s.take n) attrs href, n)
      | none => none) html

/-- The configuration record read by `getInputs` (src/app.js), with all text
fields already trimmed as `getInputs` trims them. -/
structure TransformConfig where
  imageBase : Str
  preheader : Str
  hiddenText : Str
  utmMedium : Str
  utmCampaign : Str
  isResponsive : Bool

/-- The nine-step transformation pipeline of `onModifyClick` (src/app.js),
with the UI input/output handling stripped away. -/
def onModifyPipeline (cfg : TransformConfig) (rawHtml : Str) : Str :=
  let h1 := stripTableHeights rawHtml
  let h2 := normalizeTables h1 cfg.isResponsive
  let h3 := if cfg.preheader ≠ [] then injectPreheader h2 cfg.preheader else h2
  let h4 := if cfg.hiddenText ≠ [] then injectHiddenText h3 cfg.hiddenText else h3
  let h5 := enhanceImages h4 cfg.imageBase cfg.preheader
  let h6 := zeroImageOnlyTds h5
  let h7 := removeNoopColspans h6
  let h8 := utmifyLinks h7 cfg.utmMedium cfg.utmCampaign
  lightMinify h8

/-- Observable extractor worker: the values of all ` alt="..."` attributes of
a document, in order. -/
def altsOfF : Nat → Str → List Str
  | 0, _ => []
  | _, [] => []
  | f + 1, c :: t =>
    if startsWithLit " alt=".data (c :: t) && startsWithLit [qc] (t.drop 4) then
      let v := (t.drop 5).takeWhile (· ≠ qc)
      v :: altsOfF f ((t.drop 5).drop v.length)
    else altsOfF f t

/-- Observable extractor entry point (fuel = input length). -/
def altsOf (s : Str) : List Str := altsOfF s.length s

set_option maxRecDepth 80000

/-- Every member of the joined fragment list is an infix of the join. -/
theorem joinSep_infix_of_mem (sep : Str) (p : Str) :
    ∀ parts : List Str, p ∈ parts → List.IsInfix p (joinSep sep parts)
  | [], hp => absurd hp (List.not_mem_nil p)
  | [x], hp => by
    rcases List.mem_singleton.mp hp with rfl
    exact List.infix_refl p
  | x :: y :: t, hp => by
    rcases List.mem_cons.mp hp with rfl | hp2
    · exact ⟨[], sep ++ joinSep sep (y :: t), by simp [joinSep]⟩
    · rcases joinSep_infix_of_mem sep p (y :: t) hp2 with ⟨a, b, hab⟩
      exact ⟨x ++ sep ++ a, b, by simp [joinSep, ← hab]⟩

/-- Removing one key leaves lookups of other keys unchanged. -/
theorem lookupParam_removeKey (k1 k : Str) (h : ¬ k1 = k) :
    ∀ ps, lookupParam k1 (removeKey k ps) = lookupParam k1 ps
  | [] => rfl
  | (k0, v0) :: t => by
    by_cases hk : k0 = k
    · subst hk
      have hne : ¬ k0 = k1 := fun hh => h (hh.symm)
      simp [removeKey, lookupParam, hne, lookupParam_removeKey k1 k0 h t]
    · by_cases h01 : k0 = k1
      · subst h01; simp [removeKey, hk, lookupParam]
      · simp [removeKey, hk, lookupParam, h01, lookupParam_removeKey k1 k h t]

/-- After `URLSearchParams.set`, the key maps to the fresh value. -/
theorem lookupParam_set_same (k v : Str) :
    ∀ ps, lookupParam k (setParamList ps k v) = some v
  | [] => by simp [setParamList, lookupParam]
  | (k0, v0) :: t => by
    by_cases hk : k0 = k
    · subst hk; simp [setParamList, lookupParam]
    · simp [setParamList, hk, lookupParam, lookupParam_set_same k v t]

/-- `URLSearchParams.set` does not disturb lookups of other keys. -/
theorem lookupParam_set_ne (k1 k v : Str) (h : ¬ k1 = k) :
    ∀ ps, lookupParam k1 (setParamList ps k v) = lookupParam k1 ps
  | [] => by
    have hne : ¬ k = k1 := fun hh => h (hh.symm)
    simp [setParamList, lookupParam, hne]
  | (k0, v0) :: t => by
    by_cases hk : k0 = k
    · subst hk
      have hne : ¬ k0 = k1 := fun hh => h (hh.symm)
      simp [setParamList, lookupParam, hne, lookupParam_removeKey k1 k0 h t]
    · by_cases h01 : k0 = k1
      · subst h01; simp [setParamList, hk, lookupParam]
      · simp [setParamList, hk, lookupParam, h01, lookupParam_set_ne k1 k v h t]

/-- The head surviving a `dropWhile` fails the predicate. -/
theorem head_dropWhile_not (p : Char → Bool) :
    ∀ l : Str, ∀ c : Char, (l.dropWhile p).head? = some c → p c = false
  | [], c, h => by simp [List.dropWhile] at h
  | x :: t, c, h => by
    rw [List.dropWhile_cons] at h
    by_cases hx : p x
    · rw [if_pos hx] at h
      exact head_dropWhile_not p t c h
    · rw [if_neg hx] at h
      simp at h
      rw [← h]
      exact Bool.of_not_eq_true hx

/-- C1 counterexample: on the non-empty source fragment `<p>hi</p>` with an
all-empty configuration, the pipeline returns the fragment unchanged — the
output does not begin with a doctype declaration and contains no `<html>` and
no `<body>` at all, refuting the claim that the output is always a complete
standalone document. -/
theorem c1_cex :
    onModifyPipeline ⟨[], [], [], [], [], false⟩ "<p>hi</p>".data =
      "<p>hi</p>".data ∧
    startsWithCI "<!doctype".data
      (onModifyPipeline ⟨[], [], [], [], [], false⟩ "<p>hi</p>".data) = false ∧
    countSub "<html".data
      (onModifyPipeline ⟨[], [], [], [], [], false⟩ "<p>hi</p>".data) = 0 ∧
    countSub "<body".data
      (onModifyPipeline ⟨[], [], [], [], [], false⟩ "<p>hi</p>".data) = 0 := by
  exact ⟨by decide, by decide, by decide, by decide⟩

/-- C1 amended: the pipeline builds no document shell of its own — it keeps
whatever shell the source supplies and adds none to a shell-less fragment.
On a complete-document source (here with a nonempty preheader) the output
still begins with the doctype and contains exactly one `<html>`, `<head>` and
`<body>`; on a fragment source the output still contains none. -/
theorem c1_thm :
    (startsWithCI "<!doctype".data (onModifyPipeline
      ⟨[], "Sale now".data, [], [], [], false⟩
      ("<!DOCTYPE html><html><head></head><body><table><tr><td>x</td></tr>" ++
       "</table></body></html>").data) = true ∧
     countSub "<html".data (onModifyPipeline
      ⟨[], "Sale now".data, [], [], [], false⟩
      ("<!DOCTYPE html><html><head></head><body><table><tr><td>x</td></tr>" ++
       "</table></body></html>").data) = 1 ∧
     countSub "<head".data (onModifyPipeline
      ⟨[], "Sale now".data, [], [], [], false⟩
      ("<!DOCTYPE html><html><head></head><body><table><tr><td>x</td></tr>" ++
       "</table></body></html>").data) = 1 ∧
     countSub "<body".data (onModifyPipeline
      ⟨[], "Sale now".data, [], [], [], false⟩
      ("<!DOCTYPE html><html><head></head><body><table><tr><td>x</td></tr>" ++
       "</table></body></html>").data) = 1) ∧
    (onModifyPipeline ⟨[], [], [], [], [], false⟩ "<div>a</div>".data =
      "<div>a</div>".data ∧
     countSub "<head".data
      (onModifyPipeline ⟨[], [], [], [], [], false⟩ "<div>a</div>".data) = 0) := by
  exact ⟨⟨by decide, by decide, by decide, by decide⟩, by decide, by decide⟩

/-- C2 counterexample: two different images, enhanced with an empty base URL
and the preheader `Hello`, both receive the identical alt text `Hello`: the
output carries two case-identical alt values, refuting the uniqueness
invariant (there is no collision resolution by index or variant counter). -/
theorem c2_cex :
    altsOf (enhanceImages "<img src=\"x.png\"><img src=\"y.png\">".data []
      "Hello".data) = ["Hello".data, "Hello".data] := by decide

/-- C2 amended: `enhanceImages` keeps no registry of used alt strings and
never resolves collisions — each alt depends only on that image tag and the
preheader, so two images with equal filenames receive byte-identical alts. -/
theorem c2_thm :
    altsOf (enhanceImages "<img src=\"a.png\"><img src=\"b/a.png\">".data [] []) =
      ["a".data, "a".data] := by decide

/-- C3 counterexample: running the table normalizer twice on `<table>` (with
responsive off) is not byte-identical to running it once. -/
theorem c3_cex :
    normalizeTables (normalizeTables "<table>".data false) false ≠
      normalizeTables "<table>".data false := by decide

/-- C3 amended: the table normalizer is not idempotent.  The second run
re-matches the `role="presentation"` it emitted as a preserved original
attribute and prepends it again, and re-injects the Outlook CSS block ahead
of the style produced by the first run, duplicating both; the doubled second
output is computed exactly. -/
theorem c3_thm :
    normalizeTables (normalizeTables "<table>".data false) false =
      ("<table role=\"presentation\" role=\"presentation\" align=\"center\" " ++
       "width=\"650\" border=\"0\" cellpadding=\"0\" cellspacing=\"0\" " ++
       "style=\"mso-table-lspace:0pt;mso-table-rspace:0pt;" ++
       "border-collapse:collapse; mso-table-lspace:0pt;mso-table-rspace:0pt;" ++
       "border-collapse:collapse;\">").data := by decide

/-- C4 counterexample: with responsive=false an author-supplied `max-width`
in the original table style survives into the normalized style (the claim
says none is present), and with responsive=true an author-supplied
`max-width:650px` makes that declaration appear twice (the claim says exactly
once). -/
theorem c4_cex :
    countSub "max-width".data
      (normalizeTables "<table style=\"max-width:100px\">".data false) = 1 ∧
    countSub "max-width:650px".data
      (normalizeTables "<table style=\"max-width:650px\">".data true) = 2 := by
  exact ⟨by decide, by decide⟩

/-- C4 amended: the target width is hard-coded to 650 (no targetWidth option
exists in the code).  For every original tag the normalized attribute list
carries `width="650"` when responsive=false and `width="100%"` when
responsive=true; on a table without author style the normalizer injects no
max-width when responsive=false and exactly one `max-width:650px` when
responsive=true — author style text, preserved after the injected block, may
add further max-width declarations of its own. -/
theorem c4_thm :
    (∀ tag : Str,
      List.IsInfix "width=\"650\"".data (normalizeTableAttributes tag false) ∧
      List.IsInfix "width=\"100%\"".data (normalizeTableAttributes tag true)) ∧
    (normalizeTables "<table>".data false =
      ("<table role=\"presentation\" align=\"center\" width=\"650\" " ++
       "border=\"0\" cellpadding=\"0\" cellspacing=\"0\" " ++
       "style=\"mso-table-lspace:0pt;mso-table-rspace:0pt;" ++
       "border-collapse:collapse;\">").data ∧
     countSub "max-width".data (normalizeTables "<table>".data false) = 0 ∧
     normalizeTables "<table>".data true =
      ("<table role=\"presentation\" align=\"center\" width=\"100%\" " ++
       "border=\"0\" cellpadding=\"0\" cellspacing=\"0\" " ++
       "style=\"mso-table-lspace:0pt;mso-table-rspace:0pt;" ++
       "border-collapse:collapse;max-width:650px;\">").data ∧
     countSub "max-width:650px".data
       (normalizeTables "<table>".data true) = 1) := by
  constructor
  · intro tag
    constructor
    · exact joinSep_infix_of_mem _ _ _
        (List.mem_append.mpr (Or.inr (by decide)))
    · exact joinSep_infix_of_mem _ _ _
        (List.mem_append.mpr (Or.inr (by decide)))
  · exact ⟨by decide, by decide, by decide, by decide⟩

/-- C5 counterexample: the anchor `<a href="https://">` carries an href that
begins with `https://`, but the URL constructor rejects `https://` (empty
host), so `utmifyLinks` leaves the fragment unchanged and the output contains
no `utm_medium` although both parameters were configured. -/
theorem c5_cex :
    utmifyLinks "<a href=\"https://\">".data "m".data "c".data =
      "<a href=\"https://\">".data ∧
    countSub "utm_medium".data
      (utmifyLinks "<a href=\"https://\">".data "m".data "c".data) = 0 := by
  exact ⟨by decide, by decide⟩

/-- C5 amended: a href beginning (case-insensitively) with `mailto:`, `tel:`,
`#` or `javascript:` makes the per-link callback return the matched fragment
byte-identical; and for every link whose href parses, when both configured
values are nonempty, the parameter list of the tagged URL maps `utm_medium`
and `utm_campaign` to exactly the configured values (existing entries are
overwritten). -/
theorem c5_thm :
    (∀ m c matched attrs href : Str, skipHref href = true →
      anchorRepl m c matched attrs href = matched) ∧
    (∀ (ps : List (Str × Str)) (m c : Str), m ≠ [] → c ≠ [] →
      lookupParam "utm_medium".data (setUtmList ps m c) = some m ∧
      lookupParam "utm_campaign".data (setUtmList ps m c) = some c) := by
  constructor
  · intro m c matched attrs href h
    simp [anchorRepl, h]
  · intro ps m c hm hc
    constructor
    · rw [setUtmList]
      simp only [hm, hc, if_pos, ne_eq, not_false_iff, if_true]
      rw [lookupParam_set_ne _ _ _ (by decide)]
      exact lookupParam_set_same _ _ _
    · rw [setUtmList]
      simp only [hm, hc, if_pos, ne_eq, not_false_iff, if_true]
      exact lookupParam_set_same _ _ _

/-- C5 witness: a `mailto:` href is returned unchanged, and on an empty
parameter list the configured values `email` / `spring` are set exactly. -/
theorem c5_wit :
    anchorRepl "m".data "c".data "<a href=\"mailto:x\"".data " ".data
      "mailto:x".data = "<a href=\"mailto:x\"".data ∧
    lookupParam "utm_medium".data
      (setUtmList [] "email".data "spring".data) = some "email".data ∧
    lookupParam "utm_campaign".data
      (setUtmList [] "email".data "spring".data) = some "spring".data :=
  ⟨c5_thm.1 _ _ _ _ _ (by decide),
   (c5_thm.2 [] "email".data "spring".data (by decide) (by decide)).1,
   (c5_thm.2 [] "email".data "spring".data (by decide) (by decide)).2⟩

/-- C6 counterexample: for `<img src="pic.png">` with preheader `Hi` and no
existing alt, the code emits the preheader `Hi` as the alt, although the
claim gives the filename derivation (which would produce `pic`, or `Pic`
title-cased) priority over preheader-derived text. -/
theorem c6_cex :
    altsOf (enhanceImages "<img src=\"pic.png\">".data [] "Hi".data) =
      ["Hi".data] ∧
    imgAltFromFile "pic.png".data = "pic".data ∧
    ("Hi".data ≠ "pic".data ∧ "Hi".data ≠ "Pic".data) := by
  exact ⟨by decide, by decide, by decide, by decide⟩

/-- C6 amended: the implemented alt priority is (a) the existing nonempty
trimmed alt; (b) else the full preheader text verbatim (no excerpting, no
positional index); (c) else the filename derivation — last path segment, one
trailing extension stripped, hyphen/underscore runs turned into single
spaces, trimmed, with no export-prefix stripping, no title-casing and no
section numbers; (d) else the empty string (there is no generic
`Email content image N` fallback). -/
theorem c6_thm : ∀ attrs ph : Str,
    (imgAltExisting attrs ≠ [] → imgAlt attrs ph = imgAltExisting attrs) ∧
    (imgAltExisting attrs = [] → ph ≠ [] → imgAlt attrs ph = ph) ∧
    (imgAltExisting attrs = [] → ph = [] →
      imgAlt attrs ph = imgAltFromFile (imgSrcOf attrs)) := by
  intro attrs ph
  refine ⟨fun h => ?_, fun h1 h2 => ?_, fun h1 h2 => ?_⟩
  · simp [imgAlt, h]
  · simp [imgAlt, h1, h2]
  · simp [imgAlt, h1, h2]

/-- C6 witness: the three priority branches at concrete attribute texts. -/
theorem c6_wit :
    imgAlt " alt=\" Hero \"".data "p".data =
      imgAltExisting " alt=\" Hero \"".data ∧
    imgAlt " src=\"x.png\"".data "p".data = "p".data ∧
    imgAlt " src=\"a-b.png\"".data [] =
      imgAltFromFile (imgSrcOf " src=\"a-b.png\"".data) :=
  ⟨(c6_thm " alt=\" Hero \"".data "p".data).1 (by decide),
   (c6_thm " src=\"x.png\"".data "p".data).2.1 (by decide) (by decide),
   (c6_thm " src=\"a-b.png\"".data []).2.2 (by decide) rfl⟩

/-- C7: a href that is not skipped and fails URL parsing makes the per-link
callback return the matched anchor fragment byte-identical, so the fragment
survives unchanged while scanning continues: in the concrete document the
malformed `https://` link is untouched and the following link is still
tagged.  All pipeline functions are total, so one malformed link never aborts
the transformation. -/
theorem c7_thm :
    (∀ m c matched attrs href : Str, skipHref href = false →
      parseForUtm href = none → anchorRepl m c matched attrs href = matched) ∧
    utmifyLinks
      "<a href=\"https://\">x</a> <a href=\"https://ok.com/\">y</a>".data
      "m".data "c".data =
      ("<a href=\"https://\">x</a> " ++
       "<a href=\"https://ok.com/?utm_medium=m&utm_campaign=c\">y</a>").data := by
  constructor
  · intro m c matched attrs href h1 h2
    simp [anchorRepl, h1, h2]
  · decide

/-- C7 witness: the malformed href `https://` is not skipped, fails to
parse, and its anchor fragment is returned unchanged. -/
theorem c7_wit :
    skipHref "https://".data = false ∧
    parseForUtm "https://".data = none ∧
    anchorRepl "m".data "c".data "<a href=\"https://\"".data " ".data
      "https://".data = "<a href=\"https://\"".data :=
  ⟨by decide, by decide, c7_thm.1 _ _ _ _ _ (by decide) (by decide)⟩

/-- C8 counterexample: the cell `<td><img alt="a>b"></td>` contains, after
trimming, exactly one img element, yet the greater-than sign inside the
quoted alt value stops the `[^>]*` of the matching pattern, so the cell is
left unchanged and never gains `padding:0` — refuting the claim that an
image-only cell always receives the zero style. -/
theorem c8_cex :
    zeroImageOnlyTds "<td><img alt=\"a>b\"></td>".data =
      "<td><img alt=\"a>b\"></td>".data ∧
    countSub "padding:0".data
      (zeroImageOnlyTds "<td><img alt=\"a>b\"></td>".data) = 0 := by
  exact ⟨by decide, by decide⟩

/-- C8 amended: cells matched by the literal pattern — a td tag and one img
tag whose attribute texts contain no greater-than sign, with only whitespace
around the img — gain the zero block: as a fresh style attribute when the td
has none, or prepended before the preserved existing declarations when it
has one; image-plus-text cells and two-image cells are left byte-identical. -/
theorem c8_thm :
    zeroImageOnlyTds "<td><img src=\"a.png\"></td>".data =
      "<td style=\"padding:0;font-size:0;line-height:0;\"><img src=\"a.png\"></td>".data ∧
    zeroImageOnlyTds "<td style=\"color:red\"><img src=\"a\"></td>".data =
      "<td style=\"padding:0;font-size:0;line-height:0; color:red\"><img src=\"a\"></td>".data ∧
    zeroImageOnlyTds "<td>x<img src=\"a\"></td>".data =
      "<td>x<img src=\"a\"></td>".data ∧
    zeroImageOnlyTds "<td><img src=\"a\"><img src=\"b\"></td>".data =
      "<td><img src=\"a\"><img src=\"b\"></td>".data := by
  exact ⟨by decide, by decide, by decide, by decide⟩

/-- C9: when the src is not absolute (no `http://`, `https://` or `data:`
prefix, case-insensitively) and the base URL is nonempty, the final src is
the base joined to the path with exactly one separating slash — trailing
slashes stripped from the base (the stripped base never ends in a slash) and
leading slashes from the path (the stripped path never begins with one);
absolute srcs, and all srcs when the base is empty, are returned unchanged. -/
theorem c9_thm :
    (∀ base src : Str, imgIsAbs src = false → base ≠ [] →
      imgSrcFinal base src = joinUrl base src ∧
      joinUrl base src = stripTrailSlashes base ++ '/' :: stripLeadSlashes src ∧
      (stripTrailSlashes base).getLast? ≠ some '/' ∧
      (stripLeadSlashes src).head? ≠ some '/') ∧
    (∀ base src : Str, imgIsAbs src = true ∨ base = [] →
      imgSrcFinal base src = src) := by
  constructor
  · intro base src habs hbase
    refine ⟨by simp [imgSrcFinal, habs, hbase], rfl, ?_, ?_⟩
    · intro h
      rw [stripTrailSlashes, List.getLast?_reverse] at h
      have := head_dropWhile_not _ _ _ h
      simp at this
    · intro h
      have := head_dropWhile_not _ _ _ h
      simp at this
  · intro base src h
    rcases h with h | h
    · simp [imgSrcFinal, h]
    · simp [imgSrcFinal, h]

/-- C9 witness: the scenario join and the two unchanged cases at concrete
inputs. -/
theorem c9_wit :
    imgSrcFinal "https://cdn.x.com/img/".data "pic.png".data =
      "https://cdn.x.com/img/pic.png".data ∧
    imgSrcFinal [] "pic.png".data = "pic.png".data ∧
    imgSrcFinal "https://cdn.x.com/img/".data "https://a.b/c.png".data =
      "https://a.b/c.png".data := by
  refine ⟨?_, ?_, ?_⟩
  · rw [(c9_thm.1 "https://cdn.x.com/img/".data "pic.png".data (by decide)
      (by decide)).1]
    decide
  · exact c9_thm.2 [] "pic.png".data (Or.inr rfl)
  · exact c9_thm.2 _ _ (Or.inl (by decide))

/-- C10: the escaping itself is sound, but `injectPreheader` splices the
escaped text into a replacement STRING, where ECMAScript `$`-substitution
applies.  `htmlEscape` leaves `$1` untouched, and the replacement expansion
then substitutes capture group 1 — the matched table tag — for it, so the
output holds two `<table` occurrences where the source held one: the user
text introduced a markup tag, contradicting the claim (and the intent of the
escaping). -/
theorem c10_thm :
    countSub "<table".data (injectPreheader
      "<table><tr><td>a</td></tr></table>".data "$1".data) = 2 ∧
    countSub "<table".data "<table><tr><td>a</td></tr></table>".data = 1 ∧
    htmlEscape "$1".data = "$1".data := by
  exact ⟨by decide, by decide, by decide⟩
